import Mathlib

/-!
# BlockBlaster game-state core: shallow embedding and verification

This file embeds the game-state core of the BlockBlaster repository
(`src/blockblaster_game.c`, `src/blockblaster_shapes.h`,
`src/blockblaster_context.h`) into Lean 4 and proves, or refutes, the
specification's testable properties about it.

Modelling conventions:
* C `int`/`long` values are modelled as `Int` (or `Nat` where the value is
  a loop index / array cursor that is provably non-negative).
* The C `float` multiplier `last_move_mult` is modelled as `ℚ`: every value
  the game ever stores in it (`1.0`, `1 + combo` clamped to `20.0`) is a
  small integer, exactly representable in binary floating point, and
  `roundf` is modelled as round-half-away-from-zero on `ℚ`.
* Fixed-size C arrays holding run-time data (`bool occ[20][20]`,
  `bool cells[5][5]`) are modelled as total functions and row lists; the
  zero-initialised remainder of a `cells` literal is recovered by `getD`
  with default `false`.
* The random source (`blockblaster_irand` / `blockblaster_frand`, which
  mix floats and process-global state) is abstracted: the bag randomizer
  is parameterised over the picker and shuffler it calls, with an explicit
  random-state token threaded through, exactly along the call structure
  of the C code.
-/

namespace BlockBlaster

/-- `SHAPE_MAX` from `blockblaster_context.h`: shapes are stored in a
`SHAPE_MAX × SHAPE_MAX` boolean grid. -/
def SHAPE_MAX : Nat := 5

/-- `Shape` from `blockblaster_context.h`: actual width/height and the
cell occupancy grid `cells[row][col]`.  Rows beyond the braces of the C
initialiser are zero-initialised, which `getD _ false` reproduces. -/
structure Shape where
  w : Nat
  h : Nat
  cells : List (List Bool)
  name : String
  deriving Repr, DecidableEq

/-- `blockblaster_shape_cell` (`blockblaster_game.c:448`): test whether a
shape occupies the cell at `(x, y)`; out-of-bounds coordinates return
`false`. -/
def blockblaster_shape_cell (s : Shape) (x y : Int) : Bool :=
  if x < 0 ∨ y < 0 ∨ x ≥ (s.w : Int) ∨ y ≥ (s.h : Int) then false
  else ((s.cells.getD y.toNat []).getD x.toNat false)

/-- The static `SHAPES` table from `blockblaster_shapes.h`, entry for
entry in source order (61 entries).  `tt`/`ff` abbreviations are avoided;
rows are written as boolean lists. -/
def SHAPES : List Shape := [
  -- single cell dot, four copies
  ⟨1, 1, [[true]], "1"⟩,
  ⟨1, 1, [[true]], "1"⟩,
  ⟨1, 1, [[true]], "1"⟩,
  ⟨1, 1, [[true]], "1"⟩,
  -- 2x1 horizontal bar, four copies
  ⟨2, 1, [[true, true]], "I2"⟩,
  ⟨2, 1, [[true, true]], "I2"⟩,
  ⟨2, 1, [[true, true]], "I2"⟩,
  ⟨2, 1, [[true, true]], "I2"⟩,
  -- 1x2 vertical bar, four copies
  ⟨1, 2, [[true], [true]], "V2"⟩,
  ⟨1, 2, [[true], [true]], "V2"⟩,
  ⟨1, 2, [[true], [true]], "V2"⟩,
  ⟨1, 2, [[true], [true]], "V2"⟩,
  -- 3x1 horizontal bar, four copies
  ⟨3, 1, [[true, true, true]], "I3"⟩,
  ⟨3, 1, [[true, true, true]], "I3"⟩,
  ⟨3, 1, [[true, true, true]], "I3"⟩,
  ⟨3, 1, [[true, true, true]], "I3"⟩,
  -- 1x3 vertical bar, four copies
  ⟨1, 3, [[true], [true], [true]], "V3"⟩,
  ⟨1, 3, [[true], [true], [true]], "V3"⟩,
  ⟨1, 3, [[true], [true], [true]], "V3"⟩,
  ⟨1, 3, [[true], [true], [true]], "V3"⟩,
  -- 2x2 diagonal (backslash), two copies
  ⟨2, 2, [[true, false], [false, true]], "D\\2"⟩,
  ⟨2, 2, [[true, false], [false, true]], "D\\2"⟩,
  -- 2x2 diagonal (forward slash), two copies
  ⟨2, 2, [[false, true], [true, false]], "D/2"⟩,
  ⟨2, 2, [[false, true], [true, false]], "D/2"⟩,
  -- 2x2 L-shape
  ⟨2, 2, [[true, false], [true, true]], "L2"⟩,
  -- 2x2 J-shape
  ⟨2, 2, [[false, true], [true, true]], "J2"⟩,
  -- 2x2 full block
  ⟨2, 2, [[true, true], [true, true]], "O2"⟩,
  -- 3x2 L-shape
  ⟨3, 2, [[true, false, false], [true, true, true]], "L3a"⟩,
  -- 2x3 L-shape
  ⟨2, 3, [[true, true], [true, false], [true, false]], "L3b"⟩,
  -- 3x2 J-shape
  ⟨3, 2, [[false, false, true], [true, true, true]], "J3a"⟩,
  -- 2x3 J-shape
  ⟨2, 3, [[true, true], [false, true], [false, true]], "J3b"⟩,
  -- 3x2 T-shape
  ⟨3, 2, [[true, true, true], [false, true, false]], "T"⟩,
  -- 3x2 T-shape flipped
  ⟨3, 2, [[false, true, false], [true, true, true]], "T_flip"⟩,
  -- 2x3 T-shape rotated left
  ⟨2, 3, [[false, true], [true, true], [false, true]], "T_left"⟩,
  -- 2x3 T-shape rotated right
  ⟨2, 3, [[true, false], [true, true], [true, false]], "T_right"⟩,
  -- 3x2 S-shape
  ⟨3, 2, [[true, true, false], [false, true, true]], "S"⟩,
  -- 2x3 S-shape vertical
  ⟨2, 3, [[false, true], [true, true], [true, false]], "SV"⟩,
  -- 3x2 Z-shape
  ⟨3, 2, [[false, true, true], [true, true, false]], "Z"⟩,
  -- 2x3 Z-shape vertical
  ⟨2, 3, [[true, false], [true, true], [false, true]], "ZV"⟩,
  -- 3x2 C-shape open on the right
  ⟨3, 2, [[true, true, true], [true, false, false]], "C3a"⟩,
  -- 3x2 C-shape open on the left
  ⟨3, 2, [[true, true, true], [false, false, true]], "C3c"⟩,
  -- 4x1 horizontal bar
  ⟨4, 1, [[true, true, true, true]], "I4"⟩,
  -- 1x4 vertical bar
  ⟨1, 4, [[true], [true], [true], [true]], "V4"⟩,
  -- 3x3 L-shape
  ⟨3, 3, [[true, false, false], [true, false, false], [true, true, true]], "L4"⟩,
  -- 3x3 J-shape
  ⟨3, 3, [[false, false, true], [false, false, true], [true, true, true]], "J4"⟩,
  -- 3x3 T-shape
  ⟨3, 3, [[true, true, true], [false, true, false], [false, true, false]], "T4"⟩,
  -- 3x3 T-shape reversed
  ⟨3, 3, [[false, true, false], [false, true, false], [true, true, true]], "T4R"⟩,
  -- 3x2 U-shape open on the bottom
  ⟨3, 2, [[true, false, true], [true, true, true]], "U3x2"⟩,
  -- 3x2 U-shape open on the top
  ⟨3, 2, [[true, true, true], [true, false, true]], "U3x2_flip"⟩,
  -- 2x3 U-shape open on the right
  ⟨2, 3, [[true, true], [true, false], [true, true]], "U2x3_right"⟩,
  -- 2x3 U-shape open on the left
  ⟨2, 3, [[true, true], [false, true], [true, true]], "U2x3_left"⟩,
  -- 3x2 filled rectangle
  ⟨3, 2, [[true, true, true], [true, true, true]], "R3x2"⟩,
  -- 2x3 filled rectangle
  ⟨2, 3, [[true, true], [true, true], [true, true]], "R2x3"⟩,
  -- 3x3 plus sign
  ⟨3, 3, [[false, true, false], [true, true, true], [false, true, false]], "Plus"⟩,
  -- 3x3 full block
  ⟨3, 3, [[true, true, true], [true, true, true], [true, true, true]], "O3"⟩,
  -- 3x3 diagonal (backslash)
  ⟨3, 3, [[true, false, false], [false, true, false], [false, false, true]], "D\\3"⟩,
  -- 3x3 diagonal (forward slash)
  ⟨3, 3, [[false, false, true], [false, true, false], [true, false, false]], "D/3"⟩,
  -- 5x1 horizontal bar
  ⟨5, 1, [[true, true, true, true, true]], "I5"⟩,
  -- 1x5 vertical bar
  ⟨1, 5, [[true], [true], [true], [true], [true]], "V5"⟩,
  -- 4x4 diagonal (backslash)
  ⟨4, 4, [[true, false, false, false], [false, true, false, false],
          [false, false, true, false], [false, false, false, true]], "D\\4"⟩,
  -- 4x4 diagonal (forward slash)
  ⟨4, 4, [[false, false, false, true], [false, false, true, false],
          [false, true, false, false], [true, false, false, false]], "D/4"⟩
]

/-- `SHAPES_COUNT` from `blockblaster_shapes.h`: number of table entries. -/
def SHAPES_COUNT : Nat := SHAPES.length

/-- Number of filled cells of a shape: the cells of the
`SHAPE_MAX × SHAPE_MAX` storage grid on which `blockblaster_shape_cell`
is true.  This is the "filled-cell count" the shape-table ordering
invariant speaks about. -/
def shape_cell_count (s : Shape) : Nat :=
  ((List.range SHAPE_MAX).map (fun y =>
    ((List.range SHAPE_MAX).filter (fun x =>
      blockblaster_shape_cell s (x : Int) (y : Int))).length)).sum

/-! ## Grid engine (`blockblaster_game.c`, "Grid" section)

The C grid is `bool occ[GRID_H_MAX][GRID_W_MAX]` plus per-cell theme data,
with the active region given by the globals `GRID_W`, `GRID_H`.  The
model keeps the arrays as total functions (indexed row-then-column, as in
`occ[y][x]`) and passes the active `W`, `H` explicitly.  `Theme` is a
pair of colours never inspected by the game logic; it is modelled as an
uninterpreted token (`Nat`). -/

/-- Colour theme payload; the game logic only stores and copies it. -/
abbrev Theme : Type := Nat

/-- `Grid` from `blockblaster_context.h`: occupancy, theme validity and
theme per cell, indexed `[y][x]`. -/
structure Grid where
  occ : Nat → Nat → Bool
  has_theme : Nat → Nat → Bool
  cell_theme : Nat → Nat → Theme

/-- `blockblaster_can_place_at` (`blockblaster_game.c:467`): true unless
some filled cell of shape `s`, offset by `(gx, gy)`, falls outside the
`W×H` grid or on an occupied cell.  The early `return false` of the C
loop is the failure of the corresponding `List.all`. -/
def blockblaster_can_place_at (W H : Nat) (g : Grid) (s : Shape)
    (gx gy : Int) : Bool :=
  (List.range s.h).all fun sy =>
    (List.range s.w).all fun sx =>
      !blockblaster_shape_cell s (sx : Int) (sy : Int) ||
        (decide (0 ≤ gx + sx) && decide (gx + sx < (W : Int)) &&
         decide (0 ≤ gy + sy) && decide (gy + sy < (H : Int)) &&
         !g.occ (gy + sy).toNat (gx + sx).toNat)

/-- The loop body of `blockblaster_place_shape` for one shape cell
`(sy, sx)`: if the cell is filled and lands in bounds, set occupancy and
theme at the target grid cell. -/
def place_cell (W H : Nat) (s : Shape) (gx gy : Int) (theme : Theme)
    (g : Grid) (p : Nat × Nat) : Grid :=
  let sy := p.1
  let sx := p.2
  if blockblaster_shape_cell s (sx : Int) (sy : Int) then
    let x := gx + sx
    let y := gy + sy
    if 0 ≤ x ∧ 0 ≤ y ∧ x < (W : Int) ∧ y < (H : Int) then
      { occ := fun yy xx =>
          if yy = y.toNat ∧ xx = x.toNat then true else g.occ yy xx,
        has_theme := fun yy xx =>
          if yy = y.toNat ∧ xx = x.toNat then true else g.has_theme yy xx,
        cell_theme := fun yy xx =>
          if yy = y.toNat ∧ xx = x.toNat then theme else g.cell_theme yy xx }
    else g
  else g

/-- Iteration order of the nested loops of `blockblaster_place_shape`:
rows outer, columns inner. -/
def place_pairs (s : Shape) : List (Nat × Nat) :=
  (List.range s.h).flatMap fun sy => (List.range s.w).map fun sx => (sy, sx)

/-- `blockblaster_place_shape` (`blockblaster_game.c:513`): stamp shape
`s` onto the grid at `(gx, gy)`; each filled in-bounds cell becomes
occupied with the given theme, out-of-bounds filled cells are skipped. -/
def blockblaster_place_shape (W H : Nat) (g : Grid) (s : Shape)
    (gx gy : Int) (theme : Theme) : Grid :=
  (place_pairs s).foldl (place_cell W H s gx gy theme) g

/-- `is_row_full` (`blockblaster_game.c:532`): every cell of row `y`
within the active width is occupied. -/
def is_row_full (W : Nat) (g : Grid) (y : Nat) : Bool :=
  (List.range W).all fun x => g.occ y x

/-- `is_col_full` (`blockblaster_game.c:541`): every cell of column `x`
within the active height is occupied. -/
def is_col_full (H : Nat) (g : Grid) (x : Nat) : Bool :=
  (List.range H).all fun y => g.occ y x

/-- `blockblaster_build_clear_mask` (`blockblaster_game.c:557`): returns
the mask flagging every cell of a full row or full column, and the count
of full lines (rows + columns).  The C `full_row[]`/`full_col[]` arrays
are zero outside the active range, which the `decide (y < H) &&` guards
reproduce. -/
def blockblaster_build_clear_mask (W H : Nat) (g : Grid) :
    (Nat → Nat → Bool) × Nat :=
  let full_row : Nat → Bool := fun y => decide (y < H) && is_row_full W g y
  let full_col : Nat → Bool := fun x => decide (x < W) && is_col_full H g x
  let lines := ((List.range H).filter (fun y => full_row y)).length +
               ((List.range W).filter (fun x => full_col x)).length
  (fun y x => full_row y || full_col x, lines)

/-! ## Grid-engine lemmas -/

/-- A true `blockblaster_shape_cell` means the coordinates are inside the
shape's `w × h` footprint. -/
theorem shape_cell_bounds {s : Shape} {x y : Int}
    (h : blockblaster_shape_cell s x y = true) :
    0 ≤ x ∧ x < (s.w : Int) ∧ 0 ≤ y ∧ y < (s.h : Int) := by
  unfold blockblaster_shape_cell at h
  by_cases hc : x < 0 ∨ y < 0 ∨ x ≥ (s.w : Int) ∨ y ≥ (s.h : Int)
  · rw [if_pos hc] at h
    cases h
  · push_neg at hc
    exact ⟨hc.1, hc.2.2.1, hc.2.1, hc.2.2.2⟩

/-- `blockblaster_can_place_at` is true exactly when every filled cell of
the shape, offset by `(gx, gy)`, is in bounds and lands on an unoccupied
grid cell. -/
theorem can_place_at_eq_true_iff (W H : Nat) (g : Grid) (s : Shape)
    (gx gy : Int) :
    blockblaster_can_place_at W H g s gx gy = true ↔
      ∀ sx sy : Int, blockblaster_shape_cell s sx sy = true →
        0 ≤ gx + sx ∧ gx + sx < (W : Int) ∧
        0 ≤ gy + sy ∧ gy + sy < (H : Int) ∧
        g.occ (gy + sy).toNat (gx + sx).toNat = false := by
  unfold blockblaster_can_place_at
  simp only [List.all_eq_true, List.mem_range, Bool.or_eq_true,
    Bool.not_eq_true', Bool.and_eq_true, decide_eq_true_eq]
  constructor
  · intro h sx sy hcell
    obtain ⟨hx0, hxw, hy0, hyh⟩ := shape_cell_bounds hcell
    have hyn : sy.toNat < s.h := by omega
    have hxn : sx.toNat < s.w := by omega
    have hs := h sy.toNat hyn sx.toNat hxn
    rw [Int.toNat_of_nonneg hy0, Int.toNat_of_nonneg hx0] at hs
    rcases hs with hc | hrest
    · rw [hcell] at hc
      cases hc
    · tauto
  · intro h sy hsy sx hsx
    by_cases hc : blockblaster_shape_cell s (sx : Int) (sy : Int) = true
    · have := h (sx : Int) (sy : Int) hc
      tauto
    · exact Or.inl (Bool.eq_false_iff.mpr hc)

/-- One loop iteration of `blockblaster_place_shape` writes the grid cell
`(yy, xx)` iff the shape cell `p = (sy, sx)` is filled and its in-bounds
target is `(yy, xx)`. -/
def cell_write (W H : Nat) (s : Shape) (gx gy : Int) (p : Nat × Nat)
    (yy xx : Nat) : Prop :=
  blockblaster_shape_cell s (p.2 : Int) (p.1 : Int) = true ∧
  0 ≤ gx + p.2 ∧ 0 ≤ gy + p.1 ∧
  gx + p.2 < (W : Int) ∧ gy + p.1 < (H : Int) ∧
  (gy + p.1).toNat = yy ∧ (gx + p.2).toNat = xx

instance (W H : Nat) (s : Shape) (gx gy : Int) (p : Nat × Nat)
    (yy xx : Nat) : Decidable (cell_write W H s gx gy p yy xx) := by
  unfold cell_write
  infer_instance

theorem place_cell_occ (W H : Nat) (s : Shape) (gx gy : Int) (th : Theme)
    (g : Grid) (p : Nat × Nat) (yy xx : Nat) :
    (place_cell W H s gx gy th g p).occ yy xx = true ↔
      g.occ yy xx = true ∨ cell_write W H s gx gy p yy xx := by
  unfold place_cell cell_write
  by_cases hc : blockblaster_shape_cell s (p.2 : Int) (p.1 : Int) = true
  · rw [if_pos hc]
    by_cases hb : 0 ≤ gx + (p.2 : Int) ∧ 0 ≤ gy + (p.1 : Int) ∧
        gx + (p.2 : Int) < (W : Int) ∧ gy + (p.1 : Int) < (H : Int)
    · rw [if_pos hb]
      simp only []
      by_cases ht : yy = (gy + (p.1 : Int)).toNat ∧ xx = (gx + (p.2 : Int)).toNat
      · simp only [if_pos ht]
        constructor
        · intro _
          exact Or.inr ⟨hc, hb.1, hb.2.1, hb.2.2.1, hb.2.2.2, ht.1.symm, ht.2.symm⟩
        · intro _
          trivial
      · rw [if_neg ht]
        constructor
        · exact Or.inl
        · rintro (h | ⟨_, _, _, _, _, h1, h2⟩)
          · exact h
          · exact absurd ⟨h1.symm, h2.symm⟩ ht
    · rw [if_neg hb]
      constructor
      · exact Or.inl
      · rintro (h | ⟨_, h1, h2, h3, h4, _, _⟩)
        · exact h
        · exact absurd ⟨h1, h2, h3, h4⟩ hb
  · rw [if_neg hc]
    constructor
    · exact Or.inl
    · rintro (h | ⟨h1, _⟩)
      · exact h
      · exact absurd h1 hc

theorem place_cell_untouched (W H : Nat) (s : Shape) (gx gy : Int)
    (th : Theme) (g : Grid) (p : Nat × Nat) (yy xx : Nat)
    (h : ¬ cell_write W H s gx gy p yy xx) :
    (place_cell W H s gx gy th g p).occ yy xx = g.occ yy xx ∧
    (place_cell W H s gx gy th g p).has_theme yy xx = g.has_theme yy xx ∧
    (place_cell W H s gx gy th g p).cell_theme yy xx = g.cell_theme yy xx := by
  unfold place_cell
  unfold cell_write at h
  by_cases hc : blockblaster_shape_cell s (p.2 : Int) (p.1 : Int) = true
  · rw [if_pos hc]
    by_cases hb : 0 ≤ gx + (p.2 : Int) ∧ 0 ≤ gy + (p.1 : Int) ∧
        gx + (p.2 : Int) < (W : Int) ∧ gy + (p.1 : Int) < (H : Int)
    · rw [if_pos hb]
      have ht : ¬ (yy = (gy + (p.1 : Int)).toNat ∧ xx = (gx + (p.2 : Int)).toNat) := by
        intro ht
        exact h ⟨hc, hb.1, hb.2.1, hb.2.2.1, hb.2.2.2, ht.1.symm, ht.2.symm⟩
      simp [if_neg ht]
    · rw [if_neg hb]
      exact ⟨rfl, rfl, rfl⟩
  · rw [if_neg hc]
    exact ⟨rfl, rfl, rfl⟩

theorem foldl_place_cell_occ (W H : Nat) (s : Shape) (gx gy : Int)
    (th : Theme) (yy xx : Nat) :
    ∀ (L : List (Nat × Nat)) (g : Grid),
      (L.foldl (place_cell W H s gx gy th) g).occ yy xx = true ↔
        g.occ yy xx = true ∨ ∃ p ∈ L, cell_write W H s gx gy p yy xx := by
  intro L
  induction L with
  | nil => intro g; simp
  | cons a L ih =>
      intro g
      rw [List.foldl_cons, ih, place_cell_occ]
      constructor
      · rintro ((h | h) | ⟨p, hp, hw⟩)
        · exact Or.inl h
        · exact Or.inr ⟨a, List.mem_cons_self a L, h⟩
        · exact Or.inr ⟨p, List.mem_cons_of_mem a hp, hw⟩
      · rintro (h | ⟨p, hp, hw⟩)
        · exact Or.inl (Or.inl h)
        · rcases List.mem_cons.mp hp with rfl | hp
          · exact Or.inl (Or.inr hw)
          · exact Or.inr ⟨p, hp, hw⟩

theorem foldl_place_cell_untouched (W H : Nat) (s : Shape) (gx gy : Int)
    (th : Theme) (yy xx : Nat) :
    ∀ (L : List (Nat × Nat)) (g : Grid),
      (∀ p ∈ L, ¬ cell_write W H s gx gy p yy xx) →
      (L.foldl (place_cell W H s gx gy th) g).occ yy xx = g.occ yy xx ∧
      (L.foldl (place_cell W H s gx gy th) g).has_theme yy xx
        = g.has_theme yy xx ∧
      (L.foldl (place_cell W H s gx gy th) g).cell_theme yy xx
        = g.cell_theme yy xx := by
  intro L
  induction L with
  | nil => intro g _; exact ⟨rfl, rfl, rfl⟩
  | cons a L ih =>
      intro g h
      rw [List.foldl_cons]
      have hstep := place_cell_untouched W H s gx gy th g a yy xx
        (h a (List.mem_cons_self a L))
      have hrest := ih (place_cell W H s gx gy th g a)
        (fun p hp => h p (List.mem_cons_of_mem a hp))
      exact ⟨hrest.1.trans hstep.1, hrest.2.1.trans hstep.2.1,
        hrest.2.2.trans hstep.2.2⟩

theorem mem_place_pairs (s : Shape) (p : Nat × Nat) :
    p ∈ place_pairs s ↔ p.1 < s.h ∧ p.2 < s.w := by
  cases p with
  | mk sy sx =>
      simp only [place_pairs, List.mem_flatMap, List.mem_map, List.mem_range]
      constructor
      · rintro ⟨y, hy, x, hx, heq⟩
        cases heq
        exact ⟨hy, hx⟩
      · rintro ⟨hy, hx⟩
        exact ⟨sy, hy, sx, hx, rfl⟩

/-- Occupancy after `blockblaster_place_shape`: a cell is occupied iff it
was occupied before, or some filled shape cell lands on it in bounds. -/
theorem place_shape_occ (W H : Nat) (g : Grid) (s : Shape) (gx gy : Int)
    (th : Theme) (yy xx : Nat) :
    (blockblaster_place_shape W H g s gx gy th).occ yy xx = true ↔
      g.occ yy xx = true ∨
      ∃ sy sx : Nat, sy < s.h ∧ sx < s.w ∧
        blockblaster_shape_cell s (sx : Int) (sy : Int) = true ∧
        0 ≤ gx + sx ∧ 0 ≤ gy + sy ∧
        gx + sx < (W : Int) ∧ gy + sy < (H : Int) ∧
        (gy + sy).toNat = yy ∧ (gx + sx).toNat = xx := by
  unfold blockblaster_place_shape
  rw [foldl_place_cell_occ]
  constructor
  · rintro (h | ⟨p, hp, hw⟩)
    · exact Or.inl h
    · obtain ⟨h1, h2⟩ := (mem_place_pairs s p).mp hp
      exact Or.inr ⟨p.1, p.2, h1, h2, hw.1, hw.2.1, hw.2.2.1, hw.2.2.2.1,
        hw.2.2.2.2.1, hw.2.2.2.2.2.1, hw.2.2.2.2.2.2⟩
  · rintro (h | ⟨sy, sx, h1, h2, hw⟩)
    · exact Or.inl h
    · exact Or.inr ⟨(sy, sx), (mem_place_pairs s (sy, sx)).mpr ⟨h1, h2⟩,
        hw.1, hw.2.1, hw.2.2.1, hw.2.2.2.1, hw.2.2.2.2.1, hw.2.2.2.2.2.1,
        hw.2.2.2.2.2.2⟩

/-! ## Claim C1: placement soundness -/

/-- C1: `blockblaster_can_place_at` returns true iff every filled cell of
the shape at offset `(gx, gy)` lies inside the `W×H` grid on an
unoccupied cell; and after `blockblaster_place_shape` stamps a shape at a
valid offset, `blockblaster_can_place_at` at the same offset returns
false for any shape sharing one of the newly occupied cells (such as the
shape itself). -/
theorem claim_C1_placement_soundness (W H : Nat) (g : Grid) (s : Shape)
    (gx gy : Int) :
    (blockblaster_can_place_at W H g s gx gy = true ↔
      ∀ sx sy : Int, blockblaster_shape_cell s sx sy = true →
        0 ≤ gx + sx ∧ gx + sx < (W : Int) ∧
        0 ≤ gy + sy ∧ gy + sy < (H : Int) ∧
        g.occ (gy + sy).toNat (gx + sx).toNat = false) ∧
    (∀ (s' : Shape) (th : Theme),
      blockblaster_can_place_at W H g s gx gy = true →
      (∃ a b : Int, blockblaster_shape_cell s' a b = true ∧
                    blockblaster_shape_cell s a b = true) →
      blockblaster_can_place_at W H
        (blockblaster_place_shape W H g s gx gy th) s' gx gy = false) := by
  refine ⟨can_place_at_eq_true_iff W H g s gx gy, ?_⟩
  rintro s' th hcan ⟨a, b, hs', hs⟩
  refine Bool.eq_false_iff.mpr (fun hcan' => ?_)
  have hbounds := (can_place_at_eq_true_iff W H g s gx gy).mp hcan a b hs
  have hfree' := (can_place_at_eq_true_iff W H
    (blockblaster_place_shape W H g s gx gy th) s' gx gy).mp hcan' a b hs'
  obtain ⟨ha0, haw, hb0, hbh⟩ := shape_cell_bounds hs
  have hca : ((a.toNat : Int)) = a := Int.toNat_of_nonneg ha0
  have hcb : ((b.toNat : Int)) = b := Int.toNat_of_nonneg hb0
  have hocc : (blockblaster_place_shape W H g s gx gy th).occ
      (gy + b).toNat (gx + a).toNat = true := by
    rw [place_shape_occ]
    refine Or.inr ⟨b.toNat, a.toNat, by omega, by omega, ?_, ?_, ?_, ?_, ?_,
      ?_, ?_⟩
    · rw [hca, hcb]; exact hs
    · rw [hca]; exact hbounds.1
    · rw [hcb]; exact hbounds.2.2.1
    · rw [hca]; exact hbounds.2.1
    · rw [hcb]; exact hbounds.2.2.2.1
    · rw [hcb]
    · rw [hca]
  rw [hfree'.2.2.2.2] at hocc
  cases hocc

/-- All-false 3×3 test grid used by the concrete witnesses. -/
def test_grid_empty : Grid :=
  ⟨fun _ _ => false, fun _ _ => false, fun _ _ => (0 : Nat)⟩

/-- The single-cell dot at index 0 of the `SHAPES` table. -/
def dot_shape : Shape := SHAPES.getD 0 ⟨0, 0, [], ""⟩

/-- Witness for C1: placing the dot shape at (1,1) in an empty 3×3 grid
is valid, and re-checking the same placement afterwards reports it
invalid. -/
theorem claim_C1_placement_soundness_witness :
    blockblaster_can_place_at 3 3
      (blockblaster_place_shape 3 3 test_grid_empty dot_shape 1 1 (0 : Nat))
      dot_shape 1 1 = false :=
  (claim_C1_placement_soundness 3 3 test_grid_empty dot_shape 1 1).2
    dot_shape (0 : Nat) (by decide) ⟨0, 0, by decide, by decide⟩

/-! ## Claim C10: placement clips instead of corrupting -/

/-- C10: `blockblaster_place_shape` never writes outside the `W×H` grid
(occupancy and theme data at out-of-range cells are untouched), never
resets an occupied cell, and only ever sets cells inside the grid — even
at offsets where `blockblaster_can_place_at` is false. -/
theorem claim_C10_place_shape_safety (W H : Nat) (g : Grid) (s : Shape)
    (gx gy : Int) (th : Theme) :
    (∀ yy xx, g.occ yy xx = true →
      (blockblaster_place_shape W H g s gx gy th).occ yy xx = true) ∧
    (∀ yy xx, H ≤ yy ∨ W ≤ xx →
      (blockblaster_place_shape W H g s gx gy th).occ yy xx = g.occ yy xx ∧
      (blockblaster_place_shape W H g s gx gy th).has_theme yy xx
        = g.has_theme yy xx ∧
      (blockblaster_place_shape W H g s gx gy th).cell_theme yy xx
        = g.cell_theme yy xx) ∧
    (∀ yy xx, (blockblaster_place_shape W H g s gx gy th).occ yy xx = true →
      g.occ yy xx = true ∨ (yy < H ∧ xx < W)) := by
  refine ⟨?_, ?_, ?_⟩
  · intro yy xx h
    exact (place_shape_occ W H g s gx gy th yy xx).mpr (Or.inl h)
  · intro yy xx hout
    refine foldl_place_cell_untouched W H s gx gy th yy xx (place_pairs s) g ?_
    rintro p _ ⟨_, hx0, hy0, hxW, hyH, hyy, hxx⟩
    rcases hout with hH | hW
    · omega
    · omega
  · intro yy xx h
    rcases (place_shape_occ W H g s gx gy th yy xx).mp h with h | h
    · exact Or.inl h
    · obtain ⟨sy, sx, _, _, _, hx0, hy0, hxW, hyH, hyy, hxx⟩ := h
      right
      omega

/-- Witness for C10: stamping a 2×1 bar hanging off the right edge of a
3×3 grid at (2,1) leaves the out-of-grid column untouched and sets only
the in-grid cell. -/
theorem claim_C10_place_shape_safety_witness :
    (blockblaster_place_shape 3 3 test_grid_empty
      (SHAPES.getD 4 ⟨0, 0, [], ""⟩) 2 1 (0 : Nat)).occ 1 3
      = test_grid_empty.occ 1 3 :=
  ((claim_C10_place_shape_safety 3 3 test_grid_empty
    (SHAPES.getD 4 ⟨0, 0, [], ""⟩) 2 1 (0 : Nat)).2.1 1 3
    (Or.inr (by decide))).1

/-! ## Claim C2: clear-mask correctness -/

theorem is_row_full_iff (W : Nat) (g : Grid) (y : Nat) :
    is_row_full W g y = true ↔ ∀ x, x < W → g.occ y x = true := by
  simp [is_row_full, List.all_eq_true, List.mem_range]

theorem is_col_full_iff (H : Nat) (g : Grid) (x : Nat) :
    is_col_full H g x = true ↔ ∀ y, y < H → g.occ y x = true := by
  simp [is_col_full, List.all_eq_true, List.mem_range]

/-- 10×10 test grid with rows 2 and 5 and column 3 fully occupied (and
nothing else). -/
def grid_c2 : Grid :=
  ⟨fun y x => decide (y = 2) || decide (y = 5) || decide (x = 3),
   fun _ _ => false, fun _ _ => (0 : Nat)⟩

/-- C2: `blockblaster_build_clear_mask` flags a cell iff its row or its
column is fully occupied, and returns the number of full rows plus the
number of full columns; on a 10×10 grid with two full rows and one full
column the line count is 3. -/
theorem claim_C2_clear_mask_correctness (W H : Nat) (g : Grid) :
    (∀ y x, y < H → x < W →
      ((blockblaster_build_clear_mask W H g).1 y x = true ↔
        (∀ x', x' < W → g.occ y x' = true) ∨
        (∀ y', y' < H → g.occ y' x = true))) ∧
    (blockblaster_build_clear_mask W H g).2 =
      (List.range H).countP (fun y => decide (∀ x', x' < W → g.occ y x' = true)) +
      (List.range W).countP (fun x => decide (∀ y', y' < H → g.occ y' x = true)) ∧
    (blockblaster_build_clear_mask 10 10 grid_c2).2 = 3 ∧
    (∀ x, x < 10 →
      (blockblaster_build_clear_mask 10 10 grid_c2).1 5 x = true) := by
  refine ⟨?_, ?_, by decide, by decide⟩
  · intro y x hy hx
    simp only [blockblaster_build_clear_mask, Bool.or_eq_true,
      Bool.and_eq_true, decide_eq_true_eq]
    constructor
    · rintro (⟨_, hr⟩ | ⟨_, hc⟩)
      · exact Or.inl ((is_row_full_iff W g y).mp hr)
      · exact Or.inr ((is_col_full_iff H g x).mp hc)
    · rintro (hr | hc)
      · exact Or.inl ⟨hy, (is_row_full_iff W g y).mpr hr⟩
      · exact Or.inr ⟨hx, (is_col_full_iff H g x).mpr hc⟩
  · simp only [blockblaster_build_clear_mask]
    rw [List.countP_eq_length_filter, List.countP_eq_length_filter]
    congr 1
    · refine congrArg List.length (List.filter_congr ?_)
      intro y hy
      rw [List.mem_range] at hy
      rw [Bool.eq_iff_iff]
      simp only [Bool.and_eq_true, decide_eq_true_eq]
      rw [is_row_full_iff]
      exact ⟨fun h => h.2, fun h => ⟨hy, h⟩⟩
    · refine congrArg List.length (List.filter_congr ?_)
      intro x hx
      rw [List.mem_range] at hx
      rw [Bool.eq_iff_iff]
      simp only [Bool.and_eq_true, decide_eq_true_eq]
      rw [is_col_full_iff]
      exact ⟨fun h => h.2, fun h => ⟨hx, h⟩⟩

/-- Witness for C2: on the two-rows-one-column grid, the cell (0, 2) of
full row 2 is flagged by the mask. -/
theorem claim_C2_clear_mask_correctness_witness :
    (blockblaster_build_clear_mask 10 10 grid_c2).1 2 0 = true :=
  ((claim_C2_clear_mask_correctness 10 10 grid_c2).1 2 0 (by decide)
    (by decide)).mpr (Or.inl (by decide))

/-! ## Scoring / combo state machine (`blockblaster_score_move`)

Scoring constants from `blockblaster_context.h`.  The C `float`
multiplier is modelled as `ℚ` (every stored value is a small integer,
exact in binary floating point) and `roundf` as round-half-away-from-zero
on `ℚ`. -/

def SCORE_PER_PLACED_CELL : Int := 1
def SCORE_PER_CLEARED_CELL : Int := 10
def SCORE_PER_LINE_BONUS : Int := 25
def SCORE_MULTI_LINE_BONUS : Int := 50
def MAX_MULTIPLIER : ℚ := 20

/-- The scoring-related fields of `GameContext`
(`blockblaster_context.h:745-750`). -/
structure GameScore where
  score : Int
  high_score : Int
  combo : Int
  highest_combo : Int
  combo_miss : Int
  last_move_mult : ℚ
  deriving DecidableEq

/-- C `roundf`: round half away from zero. -/
def c_roundf (q : ℚ) : Int :=
  if q < 0 then -⌊-q + 1/2⌋ else ⌊q + 1/2⌋

/-- `blockblaster_score_move` (`blockblaster_game.c:870`): apply the
score for one placement.  Returns the updated context together with the
C function's outputs `(gained_total, clear_gain, mult)`. -/
def blockblaster_score_move (gm : GameScore)
    (placed_cells lines_cleared cleared_cells : Int) :
    GameScore × Int × Int × ℚ :=
  let place_gain := placed_cells * SCORE_PER_PLACED_CELL
  if lines_cleared > 0 then
    let combo := gm.combo + lines_cleared
    let highest_combo :=
      if combo > gm.highest_combo then combo else gm.highest_combo
    let mult0 : ℚ := 1 + (combo : ℚ)
    let mult := if mult0 > MAX_MULTIPLIER then MAX_MULTIPLIER else mult0
    let base_clear := cleared_cells * SCORE_PER_CLEARED_CELL
    let line_bonus := lines_cleared * SCORE_PER_LINE_BONUS
    let multi_bonus :=
      if lines_cleared > 1 then SCORE_MULTI_LINE_BONUS * (lines_cleared - 1)
      else 0
    let subtotal := base_clear + line_bonus + multi_bonus
    let clear_gain := c_roundf ((subtotal : ℚ) * mult)
    let gained_total := place_gain + clear_gain
    let score := gm.score + gained_total
    ({ score := score,
       high_score :=
         if score > gm.high_score then score else gm.high_score,
       combo := combo,
       highest_combo := highest_combo,
       combo_miss := 0,
       last_move_mult := mult },
     gained_total, clear_gain, mult)
  else
    -- no clear: combo-miss bookkeeping; mult falls back to 1 or to the
    -- previous multiplier inside the forgiveness window
    let miss :=
      if gm.combo > 0 then
        if gm.combo_miss + 1 > 3 then ((0 : Int), (0 : Int), (1 : ℚ))
        else (gm.combo, gm.combo_miss + 1, gm.last_move_mult)
      else (gm.combo, gm.combo_miss, (1 : ℚ))
    let gained_total := place_gain
    let score := gm.score + gained_total
    ({ score := score,
       high_score :=
         if score > gm.high_score then score else gm.high_score,
       combo := miss.1,
       highest_combo := gm.highest_combo,
       combo_miss := miss.2.1,
       last_move_mult := miss.2.2 },
     gained_total, 0, miss.2.2)

/-! ## Claim C3: combo forgiveness -/

/-- A non-clearing move with a live combo inside the forgiveness window
keeps combo and multiplier and counts one miss. -/
theorem score_move_miss_keep (gm : GameScore) (p c : Int)
    (h1 : gm.combo > 0) (h2 : ¬ gm.combo_miss + 1 > 3) :
    (blockblaster_score_move gm p 0 c).1.combo = gm.combo ∧
    (blockblaster_score_move gm p 0 c).1.combo_miss = gm.combo_miss + 1 ∧
    (blockblaster_score_move gm p 0 c).1.last_move_mult
      = gm.last_move_mult := by
  unfold blockblaster_score_move
  rw [if_neg (by omega : ¬((0 : Int) > 0))]
  simp [h1, h2]

/-- A fourth consecutive non-clearing move resets combo, miss counter and
multiplier. -/
theorem score_move_miss_reset (gm : GameScore) (p c : Int)
    (h1 : gm.combo > 0) (h2 : gm.combo_miss + 1 > 3) :
    (blockblaster_score_move gm p 0 c).1.combo = 0 ∧
    (blockblaster_score_move gm p 0 c).1.combo_miss = 0 ∧
    (blockblaster_score_move gm p 0 c).1.last_move_mult = 1 := by
  unfold blockblaster_score_move
  rw [if_neg (by omega : ¬((0 : Int) > 0))]
  simp [h1, h2]

/-- A non-clearing move with no live combo resets the multiplier to 1. -/
theorem score_move_miss_zero (gm : GameScore) (p c : Int)
    (h1 : ¬ gm.combo > 0) :
    (blockblaster_score_move gm p 0 c).1.last_move_mult = 1 := by
  unfold blockblaster_score_move
  rw [if_neg (by omega : ¬((0 : Int) > 0))]
  simp only [if_neg h1]

/-- C3: from combo `c > 0` with `combo_miss = 0`, three consecutive
non-clearing `blockblaster_score_move` calls each leave the combo equal
to `c` and `last_move_mult` unchanged; the fourth resets combo to 0,
`combo_miss` to 0 and `last_move_mult` to 1.  With combo 0 a non-clearing
move sets `last_move_mult` to 1. -/
theorem claim_C3_combo_forgiveness (gm gm0 : GameScore)
    (p1 c1 p2 c2 p3 c3 p4 c4 p c : Int)
    (hc : gm.combo > 0) (hm : gm.combo_miss = 0) (h0 : gm0.combo = 0) :
    ((blockblaster_score_move gm p1 0 c1).1.combo = gm.combo ∧
     (blockblaster_score_move gm p1 0 c1).1.last_move_mult
       = gm.last_move_mult) ∧
    ((blockblaster_score_move
        (blockblaster_score_move gm p1 0 c1).1 p2 0 c2).1.combo = gm.combo ∧
     (blockblaster_score_move
        (blockblaster_score_move gm p1 0 c1).1 p2 0 c2).1.last_move_mult
       = gm.last_move_mult) ∧
    ((blockblaster_score_move (blockblaster_score_move
        (blockblaster_score_move gm p1 0 c1).1 p2 0 c2).1 p3 0 c3).1.combo
       = gm.combo ∧
     (blockblaster_score_move (blockblaster_score_move
        (blockblaster_score_move gm p1 0 c1).1 p2 0 c2).1
          p3 0 c3).1.last_move_mult = gm.last_move_mult) ∧
    ((blockblaster_score_move (blockblaster_score_move
        (blockblaster_score_move (blockblaster_score_move gm p1 0 c1).1
          p2 0 c2).1 p3 0 c3).1 p4 0 c4).1.combo = 0 ∧
     (blockblaster_score_move (blockblaster_score_move
        (blockblaster_score_move (blockblaster_score_move gm p1 0 c1).1
          p2 0 c2).1 p3 0 c3).1 p4 0 c4).1.combo_miss = 0 ∧
     (blockblaster_score_move (blockblaster_score_move
        (blockblaster_score_move (blockblaster_score_move gm p1 0 c1).1
          p2 0 c2).1 p3 0 c3).1 p4 0 c4).1.last_move_mult = 1) ∧
    (blockblaster_score_move gm0 p 0 c).1.last_move_mult = 1 := by
  obtain ⟨e1c, e1m, e1l⟩ := score_move_miss_keep gm p1 c1 hc (by omega)
  obtain ⟨e2c, e2m, e2l⟩ := score_move_miss_keep
    (blockblaster_score_move gm p1 0 c1).1 p2 c2 (by omega) (by omega)
  obtain ⟨e3c, e3m, e3l⟩ := score_move_miss_keep
    (blockblaster_score_move
      (blockblaster_score_move gm p1 0 c1).1 p2 0 c2).1 p3 c3
    (by omega) (by omega)
  obtain ⟨e4c, e4m, e4l⟩ := score_move_miss_reset
    (blockblaster_score_move (blockblaster_score_move
      (blockblaster_score_move gm p1 0 c1).1 p2 0 c2).1 p3 0 c3).1 p4 c4
    (by omega) (by omega)
  refine ⟨⟨e1c, e1l⟩, ⟨?_, ?_⟩, ⟨?_, ?_⟩, ⟨e4c, e4m, e4l⟩, ?_⟩
  · rw [e2c, e1c]
  · rw [e2l, e1l]
  · rw [e3c, e2c, e1c]
  · rw [e3l, e2l, e1l]
  · exact score_move_miss_zero gm0 p c (by omega)

/-- Witness for C3: a concrete session state with combo 3 run through
four non-clearing moves ends with multiplier reset to 1. -/
theorem claim_C3_combo_forgiveness_witness :
    (blockblaster_score_move (blockblaster_score_move
      (blockblaster_score_move (blockblaster_score_move
        ⟨100, 100, 3, 3, 0, 4⟩ 2 0 0).1 2 0 0).1 2 0 0).1
          2 0 0).1.last_move_mult = 1 :=
  (claim_C3_combo_forgiveness ⟨100, 100, 3, 3, 0, 4⟩ ⟨0, 0, 0, 0, 0, 1⟩
    2 0 2 0 2 0 2 0 2 0 (by decide) (by decide) (by decide)).2.2.2.1.2.2

/-! ## Claim C4: score monotonicity -/

theorem c_roundf_nonneg (q : ℚ) (h : 0 ≤ q) : 0 ≤ c_roundf q := by
  unfold c_roundf
  rw [if_neg (not_lt.mpr h)]
  refine Int.le_floor.mpr ?_
  push_cast
  linarith

/-- One `blockblaster_score_move` call with non-negative arguments from a
session state (combo non-negative) never decreases the score, and keeps
the combo non-negative. -/
theorem score_move_mono (gm : GameScore) (p l c : Int)
    (hp : 0 ≤ p) (hl : 0 ≤ l) (hc : 0 ≤ c) (hcm : 0 ≤ gm.combo) :
    gm.score ≤ (blockblaster_score_move gm p l c).1.score ∧
    0 ≤ (blockblaster_score_move gm p l c).1.combo := by
  have hplace : 0 ≤ p * SCORE_PER_PLACED_CELL :=
    mul_nonneg hp (by norm_num [SCORE_PER_PLACED_CELL])
  unfold blockblaster_score_move
  by_cases hl0 : l > 0
  · rw [if_pos hl0]
    dsimp only
    have hsub : (0 : Int) ≤ c * SCORE_PER_CLEARED_CELL +
        l * SCORE_PER_LINE_BONUS +
        (if l > 1 then SCORE_MULTI_LINE_BONUS * (l - 1) else 0) := by
      have h1 : (0 : Int) ≤ c * SCORE_PER_CLEARED_CELL :=
        mul_nonneg hc (by norm_num [SCORE_PER_CLEARED_CELL])
      have h2 : (0 : Int) ≤ l * SCORE_PER_LINE_BONUS :=
        mul_nonneg hl (by norm_num [SCORE_PER_LINE_BONUS])
      have h3 : (0 : Int) ≤
          (if l > 1 then SCORE_MULTI_LINE_BONUS * (l - 1) else 0) := by
        split_ifs with h
        · exact mul_nonneg (by norm_num [SCORE_MULTI_LINE_BONUS]) (by omega)
        · exact le_refl 0
      linarith
    have hng : (0 : ℚ) ≤ ((gm.combo + l : Int) : ℚ) := by
      exact_mod_cast (by omega : (0 : Int) ≤ gm.combo + l)
    have hmult : (1 : ℚ) ≤
        (if 1 + ((gm.combo + l : Int) : ℚ) > MAX_MULTIPLIER
          then MAX_MULTIPLIER else 1 + ((gm.combo + l : Int) : ℚ)) := by
      split_ifs with h
      · norm_num [MAX_MULTIPLIER]
      · linarith
    have hgain : 0 ≤ c_roundf (((c * SCORE_PER_CLEARED_CELL +
        l * SCORE_PER_LINE_BONUS +
        (if l > 1 then SCORE_MULTI_LINE_BONUS * (l - 1) else 0) : Int) : ℚ) *
        (if 1 + ((gm.combo + l : Int) : ℚ) > MAX_MULTIPLIER
          then MAX_MULTIPLIER else 1 + ((gm.combo + l : Int) : ℚ))) := by
      refine c_roundf_nonneg _ (mul_nonneg ?_ (by linarith))
      exact_mod_cast hsub
    constructor
    · linarith
    · omega
  · rw [if_neg hl0]
    dsimp only
    constructor
    · linarith
    · split_ifs <;> simp <;> omega

/-- `high_score` after any `blockblaster_score_move` call equals the max
of its previous value and the new score. -/
theorem score_move_high_eq (gm : GameScore) (p l c : Int) :
    (blockblaster_score_move gm p l c).1.high_score =
      max gm.high_score (blockblaster_score_move gm p l c).1.score := by
  unfold blockblaster_score_move
  by_cases hl0 : l > 0
  · rw [if_pos hl0]
    simp only
    split_ifs with h <;> omega
  · rw [if_neg hl0]
    simp only
    split_ifs with h <;> omega

/-- A session: fold `blockblaster_score_move` over a list of
`(placed_cells, lines_cleared, cleared_cells)` moves. -/
def run_moves (gm : GameScore) (ms : List (Int × Int × Int)) : GameScore :=
  ms.foldl (fun a m => (blockblaster_score_move a m.1 m.2.1 m.2.2).1) gm

/-- The score observed after each move of a session. -/
def scores_after (gm : GameScore) : List (Int × Int × Int) → List Int
  | [] => []
  | m :: t =>
      (blockblaster_score_move gm m.1 m.2.1 m.2.2).1.score ::
        scores_after (blockblaster_score_move gm m.1 m.2.1 m.2.2).1 t

/-- C4: a `blockblaster_score_move` call with non-negative arguments
never decreases the score (and preserves combo non-negativity); after
every call `high_score` equals `max` of its previous value and the new
score (hence `high_score ≥ score`); across any move sequence the final
`high_score` is the max of the initial `high_score` and every score
observed. -/
theorem claim_C4_score_monotonicity :
    (∀ (gm : GameScore) (p l c : Int),
      0 ≤ p → 0 ≤ l → 0 ≤ c → 0 ≤ gm.combo →
      gm.score ≤ (blockblaster_score_move gm p l c).1.score ∧
      0 ≤ (blockblaster_score_move gm p l c).1.combo) ∧
    (∀ (gm : GameScore) (p l c : Int),
      (blockblaster_score_move gm p l c).1.high_score =
        max gm.high_score (blockblaster_score_move gm p l c).1.score) ∧
    (∀ (gm : GameScore) (ms : List (Int × Int × Int)),
      (run_moves gm ms).high_score =
        (scores_after gm ms).foldl max gm.high_score) := by
  refine ⟨score_move_mono, score_move_high_eq, ?_⟩
  intro gm ms
  induction ms generalizing gm with
  | nil => rfl
  | cons m t ih =>
      have hrm : run_moves gm (m :: t) =
          run_moves (blockblaster_score_move gm m.1 m.2.1 m.2.2).1 t := rfl
      have hsc : scores_after gm (m :: t) =
          (blockblaster_score_move gm m.1 m.2.1 m.2.2).1.score ::
            scores_after (blockblaster_score_move gm m.1 m.2.1 m.2.2).1 t :=
        rfl
      rw [hrm, hsc, List.foldl_cons, ih]
      congr 1
      exact score_move_high_eq gm m.1 m.2.1 m.2.2

/-- Witness for C4: a concrete clearing move from score 0 does not
decrease the score. -/
theorem claim_C4_score_monotonicity_witness :
    (⟨0, 0, 0, 0, 0, 1⟩ : GameScore).score ≤
      (blockblaster_score_move ⟨0, 0, 0, 0, 0, 1⟩ 3 1 10).1.score :=
  (claim_C4_score_monotonicity.1 ⟨0, 0, 0, 0, 0, 1⟩ 3 1 10
    (by decide) (by decide) (by decide) (by decide)).1

/-! ## Bag randomizer (`bag_refill` / `bag_next_shape_index`)

`weighted_shape_index` mixes the score with the process-global float
random source `blockblaster_frand`; `blockblaster_shuffle_ints` consumes
`blockblaster_irand`.  The bag machinery is therefore parameterised over
those two collaborators, with an explicit random-state token (`Nat`)
threaded through in call order.  `pick score rng = (shape index, rng')`
stands for one `weighted_shape_index(score)` call and `shuffle bag rng =
(shuffled bag, rng')` for one `blockblaster_shuffle_ints(bag, len)`
call.  The `int bag[BAG_SIZE]` array whose first `bag_len` entries are
live is modelled as a `List Int` built index by index at refill. -/

/-- `BAG_SIZE` from `blockblaster_context.h`. -/
def BAG_SIZE : Nat := 24

/-- The bag-related fields of `GameContext`
(`blockblaster_context.h:808-810`) plus the score the refill reads and
the abstract random-state token. -/
structure BagCtx where
  bag : List Int
  bag_len : Nat
  bag_pos : Nat
  score : Int
  rng : Nat
  deriving DecidableEq

/-- `bag_refill` (`blockblaster_game.c:665`): set `bag_len = BAG_SIZE`,
fill `bag[i] = weighted_shape_index(score)` for each `i`, shuffle, and
reset the cursor.  (`bag_len ≤ 0` in C is `bag_len = 0` here since the
field is a `Nat` in the model; the C field only ever holds `0` or
`BAG_SIZE`.) -/
def bag_refill (pick : Int → Nat → Int × Nat)
    (shuffle : List Int → Nat → List Int × Nat) (gm : BagCtx) : BagCtx :=
  let bag_len := BAG_SIZE
  let fill := (List.range bag_len).foldl
    (fun (acc : List Int × Nat) _ =>
      let pr := pick gm.score acc.2
      (acc.1 ++ [pr.1], pr.2))
    ([], gm.rng)
  let sh := shuffle fill.1 fill.2
  { bag := sh.1, bag_len := bag_len, bag_pos := 0,
    score := gm.score, rng := sh.2 }

/-- `bag_next_shape_index` (`blockblaster_game.c:675`): refill when the
bag is empty or exhausted, then return `bag[bag_pos++]`. -/
def bag_next_shape_index (pick : Int → Nat → Int × Nat)
    (shuffle : List Int → Nat → List Int × Nat) (gm : BagCtx) :
    Int × BagCtx :=
  let gm :=
    if gm.bag_len = 0 ∨ gm.bag_pos ≥ gm.bag_len then
      bag_refill pick shuffle gm
    else gm
  (gm.bag.getD gm.bag_pos 0, { gm with bag_pos := gm.bag_pos + 1 })

/-! ## Claim C5: bag invariants -/

/-- C5: the draw cursor never exceeds the bag length; a draw from a bag
whose cursor has reached `BAG_SIZE` triggers a refill that resets the
cursor to 0 and the length to `BAG_SIZE` before returning `bag[0]`; a
draw from a non-exhausted bag leaves the contents and length untouched
for any current score; and a refill's contents depend only on the score
and random state at refill time. -/
theorem claim_C5_bag_invariants (pick : Int → Nat → Int × Nat)
    (shuffle : List Int → Nat → List Int × Nat) (gm : BagCtx) :
    ((bag_next_shape_index pick shuffle gm).2.bag_pos ≤
      (bag_next_shape_index pick shuffle gm).2.bag_len) ∧
    (gm.bag_pos = BAG_SIZE → gm.bag_len = BAG_SIZE →
      (bag_refill pick shuffle gm).bag_pos = 0 ∧
      (bag_refill pick shuffle gm).bag_len = BAG_SIZE ∧
      bag_next_shape_index pick shuffle gm =
        ((bag_refill pick shuffle gm).bag.getD 0 0,
         { bag_refill pick shuffle gm with bag_pos := 1 })) ∧
    (gm.bag_pos < gm.bag_len → ∀ s : Int,
      (bag_next_shape_index pick shuffle { gm with score := s }).2.bag
        = gm.bag ∧
      (bag_next_shape_index pick shuffle { gm with score := s }).2.bag_len
        = gm.bag_len) ∧
    (∀ gm' : BagCtx, gm.score = gm'.score → gm.rng = gm'.rng →
      (bag_refill pick shuffle gm).bag = (bag_refill pick shuffle gm').bag) := by
  refine ⟨?_, ?_, ?_, ?_⟩
  · unfold bag_next_shape_index
    by_cases h : gm.bag_len = 0 ∨ gm.bag_pos ≥ gm.bag_len
    · rw [if_pos h]
      show (bag_refill pick shuffle gm).bag_pos + 1 ≤
        (bag_refill pick shuffle gm).bag_len
      show 0 + 1 ≤ BAG_SIZE
      norm_num [BAG_SIZE]
    · rw [if_neg h]
      push_neg at h
      show gm.bag_pos + 1 ≤ gm.bag_len
      omega
  · intro h1 h2
    refine ⟨rfl, rfl, ?_⟩
    unfold bag_next_shape_index
    rw [if_pos (Or.inr (by omega))]
    rfl
  · intro h s
    unfold bag_next_shape_index
    rw [if_neg (by simp only [not_or]; omega)]
    exact ⟨rfl, rfl⟩
  · intro gm' hs hr
    unfold bag_refill
    rw [hs, hr]

/-- Trivial concrete picker and shuffler used by the C5 witness. -/
def test_pick (s : Int) (r : Nat) : Int × Nat := (s % 7, r + 1)

/-- Identity shuffle used by the C5 witness. -/
def test_shuffle (l : List Int) (r : Nat) : List Int × Nat := (l, r + 1)

/-- A mid-bag test state: 24 entries, cursor at 5. -/
def test_bag_ctx : BagCtx :=
  ⟨(List.range BAG_SIZE).map (fun i => (i : Int)), BAG_SIZE, 5, 100, 0⟩

/-- Witness for C5: drawing mid-bag with the score changed to 999 leaves
the bag contents untouched. -/
theorem claim_C5_bag_invariants_witness :
    (bag_next_shape_index test_pick test_shuffle
      { test_bag_ctx with score := 999 }).2.bag = test_bag_ctx.bag :=
  ((claim_C5_bag_invariants test_pick test_shuffle test_bag_ctx).2.2.1
    (by decide) 999).1

/-! ## High-score table (`blockblaster_insert_high_score`) -/

/-- `MAX_HIGH_SCORES` from `blockblaster_context.h`. -/
def MAX_HIGH_SCORES : Nat := 5

/-- `HighScoreEntry` from `blockblaster_context.h:584-591`. -/
structure HSEntry where
  grid_w : Int
  grid_h : Int
  tray_count : Int
  score : Int
  highest_combo : Int
  name : String
  deriving DecidableEq, Repr

/-- The insertion-point scan of `blockblaster_insert_high_score`
(`blockblaster_game.c:1871-1877`): index of the first entry with a
strictly smaller score, or the entry count if none. -/
def find_insert_pos (score : Int) : List HSEntry → Nat
  | [] => 0
  | a :: t => if score > a.score then 0 else find_insert_pos score t + 1

/-- `blockblaster_insert_high_score` (`blockblaster_game.c:1867`): find
the sorted-descending insertion point; bail out when it falls beyond the
table capacity; otherwise shift the lower entries down (truncating to
`MAX_HIGH_SCORES`) and insert. -/
def blockblaster_insert_high_score (table : List HSEntry) (e : HSEntry) :
    List HSEntry :=
  let pos := find_insert_pos e.score table
  if pos ≥ MAX_HIGH_SCORES then table
  else (table.take pos ++ e :: table.drop pos).take
    (min (table.length + 1) MAX_HIGH_SCORES)

/-- The table invariant: sorted descending by score. -/
def sorted_desc (t : List HSEntry) : Prop :=
  List.Pairwise (fun a b => b.score ≤ a.score) t

theorem find_insert_pos_le (s : Int) :
    ∀ t : List HSEntry, find_insert_pos s t ≤ t.length := by
  intro t
  induction t with
  | nil => exact Nat.le_refl 0
  | cons a t ih =>
      unfold find_insert_pos
      split_ifs
      · exact Nat.zero_le _
      · exact Nat.succ_le_succ ih

theorem find_insert_pos_lt_of_mem (s : Int) {b : HSEntry} :
    ∀ t : List HSEntry, b ∈ t → b.score < s →
      find_insert_pos s t < t.length := by
  intro t
  induction t with
  | nil => intro h; cases h
  | cons a t ih =>
      intro hb hbs
      unfold find_insert_pos
      split_ifs with h
      · exact Nat.succ_le_succ (Nat.zero_le _)
      · rcases List.mem_cons.mp hb with rfl | hb'
        · omega
        · exact Nat.succ_lt_succ (ih hb' hbs)

/-- Inserting at `find_insert_pos` keeps the list sorted descending. -/
theorem sorted_insert_aux (e : HSEntry) :
    ∀ t : List HSEntry, sorted_desc t →
      sorted_desc (t.take (find_insert_pos e.score t) ++
        e :: t.drop (find_insert_pos e.score t)) := by
  intro t
  induction t with
  | nil =>
      intro _
      simp [sorted_desc, find_insert_pos]
  | cons a t ih =>
      intro h
      unfold sorted_desc at h ⊢
      have hsplit := List.pairwise_cons.mp h
      unfold find_insert_pos
      split_ifs with hgt
      · -- e goes in front: e :: a :: t
        simp only [List.take_zero, List.drop_zero, List.nil_append]
        rw [List.pairwise_cons]
        constructor
        · intro b hb
          rcases List.mem_cons.mp hb with rfl | hb'
          · omega
          · have := hsplit.1 b hb'
            omega
        · exact h
      · -- a stays in front of the tail insertion
        simp only [List.take_succ_cons, List.drop_succ_cons, List.cons_append]
        rw [List.pairwise_cons]
        constructor
        · intro b hb
          rcases List.mem_append.mp hb with hb' | hb'
          · exact hsplit.1 b (List.take_subset _ _ hb')
          · rcases List.mem_cons.mp hb' with rfl | hb''
            · omega
            · exact hsplit.1 b (List.drop_subset _ _ hb'')
        · exact ih hsplit.2

/-! ## Claim C6: high-score table ordering -/

/-- A fresh table entry carrying only a score, as the concrete scenario
needs. -/
def hs_entry (s : Int) : HSEntry := ⟨10, 10, 4, s, 0, "PLAYR"⟩

/-- C6: inserting scores 50, 200, 10, 999, 300, 1 into an empty table
yields exactly [999, 300, 200, 50, 10]; in general insertion preserves
descending sortedness and the 5-entry capacity, and into a full table
whose lowest entry scores below the new one it inserts the new entry,
keeps the first four old entries and stays at 5 entries. -/
theorem claim_C6_high_score_ordering :
    (blockblaster_insert_high_score (blockblaster_insert_high_score
      (blockblaster_insert_high_score (blockblaster_insert_high_score
        (blockblaster_insert_high_score (blockblaster_insert_high_score
          [] (hs_entry 50)) (hs_entry 200)) (hs_entry 10))
            (hs_entry 999)) (hs_entry 300)) (hs_entry 1) =
      [hs_entry 999, hs_entry 300, hs_entry 200, hs_entry 50,
       hs_entry 10]) ∧
    (∀ (table : List HSEntry) (e : HSEntry), sorted_desc table →
      sorted_desc (blockblaster_insert_high_score table e)) ∧
    (∀ (table : List HSEntry) (e : HSEntry),
      table.length ≤ MAX_HIGH_SCORES →
      (blockblaster_insert_high_score table e).length ≤ MAX_HIGH_SCORES) ∧
    (∀ (table : List HSEntry) (e b : HSEntry),
      table.length = MAX_HIGH_SCORES → b ∈ table → b.score < e.score →
      (blockblaster_insert_high_score table e).length = MAX_HIGH_SCORES ∧
      e ∈ blockblaster_insert_high_score table e ∧
      ∀ x ∈ table.take (MAX_HIGH_SCORES - 1),
        x ∈ blockblaster_insert_high_score table e) := by
  refine ⟨by decide, ?_, ?_, ?_⟩
  · intro table e h
    simp only [blockblaster_insert_high_score]
    split_ifs with hpos
    · exact h
    · exact List.Pairwise.sublist (List.take_sublist _ _)
        (sorted_insert_aux e table h)
  · intro table e hlen
    simp only [blockblaster_insert_high_score]
    split_ifs with hpos
    · exact hlen
    · rw [List.length_take]
      simp only [MAX_HIGH_SCORES] at *
      omega
  · intro table e b hlen hb hbs
    simp only [MAX_HIGH_SCORES] at hlen
    have hposlt : find_insert_pos e.score table < table.length :=
      find_insert_pos_lt_of_mem e.score table hb hbs
    have hple : find_insert_pos e.score table ≤ table.length :=
      find_insert_pos_le e.score table
    simp only [blockblaster_insert_high_score]
    rw [if_neg (by simp only [MAX_HIGH_SCORES]; omega)]
    set p := find_insert_pos e.score table with hp
    have hmin : min (table.length + 1) MAX_HIGH_SCORES = 5 := by
      simp only [MAX_HIGH_SCORES]
      omega
    rw [hmin]
    have hlt : (table.take p).length = p := by
      rw [List.length_take]
      omega
    have hres : (table.take p ++ e :: table.drop p).take 5 =
        table.take p ++ e :: (table.drop p).take (4 - p) := by
      rw [List.take_append_eq_append_take, List.take_take, hlt]
      have h5p : min 5 p = p := by omega
      rw [h5p]
      congr 1
      have h51 : 5 - p = (4 - p) + 1 := by omega
      rw [h51, List.take_succ_cons]
    rw [hres]
    refine ⟨?_, ?_, ?_⟩
    · rw [List.length_append, List.length_cons, List.length_take,
        List.length_take, List.length_drop]
      simp only [MAX_HIGH_SCORES]
      omega
    · exact List.mem_append.mpr (Or.inr (List.mem_cons_self _ _))
    · intro x hx
      simp only [MAX_HIGH_SCORES] at hx
      have h41 : (5 - 1 : Nat) = p + (4 - p) := by omega
      rw [h41, List.take_add] at hx
      rcases List.mem_append.mp hx with hx' | hx'
      · exact List.mem_append.mpr (Or.inl hx')
      · exact List.mem_append.mpr (Or.inr (List.mem_cons_of_mem _ hx'))

/-- Witness for C6: inserting score 100 into the sorted table
[200, 50] keeps the table sorted descending. -/
theorem claim_C6_high_score_ordering_witness :
    sorted_desc (blockblaster_insert_high_score
      [hs_entry 200, hs_entry 50] (hs_entry 100)) := by
  refine claim_C6_high_score_ordering.2.1 [hs_entry 200, hs_entry 50]
    (hs_entry 100) ?_
  unfold sorted_desc
  decide

/-! ## Claim C7: settings defaulting

`blockblaster_load_settings` (`blockblaster_game.c:2116`) modelled at
parse-outcome granularity: `none` = settings file missing (the C function
returns early with the pre-set defaults); `some none` = file present but
`fscanf` matched fewer than two integers (defaults kept, clamp pass still
runs); `some (some (tc, gs))` = both integers parsed, clamp pass runs. -/
def blockblaster_load_settings (file : Option (Option (Int × Int))) :
    Int × Int :=
  match file with
  | none => (4, 10)
  | some parsed =>
      let read : Int × Int :=
        match parsed with
        | none => (4, 10)
        | some (tc, gs) => (tc, gs)
      -- clamp to valid ranges (blockblaster_game.c:2154-2160)
      let tc := read.1
      let gs := read.2
      let tc := if tc < 1 then 1 else tc
      let tc := if tc > 4 then 4 else tc
      let gs := if gs ≠ 10 ∧ gs ≠ 15 ∧ gs ≠ 20 then 10 else gs
      (tc, gs)

/-- Counterexample to C7 as stated: a parsed `tray_count` of 0 (outside
[1,4]) yields `(1, 10)`, not the claimed `(4, 10)` — the code clamps the
tray count instead of resetting it to the default. -/
theorem claim_C7_counterexample :
    blockblaster_load_settings (some (some (0, 10))) = (1, 10) ∧
    ((1 : Int), (10 : Int)) ≠ ((4 : Int), (10 : Int)) := by
  decide

/-- C7 (amended): a missing or unparseable settings file yields
`(4, 10)`; a parsed `tray_count` is clamped into [1,4] (values below 1
become 1, above 4 become 4, not 4 across the board) and a parsed
`grid_size` outside {10, 15, 20} becomes 10, each field independently;
consequently the result is always in range. -/
theorem claim_C7_settings_defaulting :
    (blockblaster_load_settings none = (4, 10)) ∧
    (blockblaster_load_settings (some none) = (4, 10)) ∧
    (∀ tc gs : Int,
      blockblaster_load_settings (some (some (tc, gs))) =
        (if tc < 1 then 1 else if tc > 4 then 4 else tc,
         if gs = 10 ∨ gs = 15 ∨ gs = 20 then gs else 10)) ∧
    (∀ tc gs : Int,
      1 ≤ (blockblaster_load_settings (some (some (tc, gs)))).1 ∧
      (blockblaster_load_settings (some (some (tc, gs)))).1 ≤ 4 ∧
      ((blockblaster_load_settings (some (some (tc, gs)))).2 = 10 ∨
       (blockblaster_load_settings (some (some (tc, gs)))).2 = 15 ∨
       (blockblaster_load_settings (some (some (tc, gs)))).2 = 20)) := by
  refine ⟨rfl, rfl, ?_, ?_⟩
  · intro tc gs
    simp only [blockblaster_load_settings, Prod.mk.injEq]
    constructor
    · split_ifs <;> omega
    · split_ifs <;> omega
  · intro tc gs
    simp only [blockblaster_load_settings]
    refine ⟨?_, ?_, ?_⟩
    · split_ifs <;> omega
    · split_ifs <;> omega
    · split_ifs <;> omega

/-! ## Claim C8: legacy high-score fallback

The branch of `blockblaster_load_high_scores` taken when the primary
scores file is absent (`blockblaster_game.c:1780-1799`), followed by the
shared derive-and-clamp pass (lines 1837-1850).  The whole table was
zeroed by `memset` beforehand; the legacy branch assigns only `score`,
`highest_combo` and the name `"PLAYR"`, leaving `grid_w`, `grid_h` and
`tray_count` at 0.  `parsed = none` means the legacy file is also absent
or its first integer unparseable; `some (hs, hc)` means `fscanf` matched
at least the score (`hc` keeps its initialiser 0 when only one item
matched). -/
def clamp_entry (e : HSEntry) : HSEntry :=
  { e with
    score := if e.score < 0 then 0 else e.score,
    highest_combo := if e.highest_combo < 0 then 0 else e.highest_combo,
    name := if e.name = "" then "PLAYR" else e.name }

/-- Legacy-fallback load: the resulting table and derived `high_score`.
The C derives `gm->high_score = high_scores[0].score`
(`blockblaster_game.c:1837-1839`) before the clamp pass runs over the
table entries (lines 1841-1850), so `high_score` keeps the raw parsed
score even when the clamp later raises a negative entry score to 0. -/
def load_high_scores_no_primary (parsed : Option (Int × Int)) :
    List HSEntry × Int :=
  let table : List HSEntry :=
    match parsed with
    | none => []
    | some (hs, hc) => [⟨0, 0, 0, hs, hc, "PLAYR"⟩]
  -- derive high_score from the best entry, before the clamp pass
  let high : Int :=
    match table with
    | [] => 0
    | e :: _ => e.score
  -- clamp pass over the table entries
  (table.map clamp_entry, high)

/-- Counterexample to C8 as stated: a legacy file parsing as score 123,
combo 4 produces an entry whose `grid_w` is 0, not the claimed 10. -/
theorem claim_C8_counterexample :
    ((load_high_scores_no_primary (some (123, 4))).1.map
      (fun e => e.grid_w)) = [0] ∧ (0 : Int) ≠ 10 := by
  decide

/-- C8 (amended): with the primary file absent, a legacy file parsing as
`score highest_combo` yields exactly one entry whose score and combo come
from the file (clamped below at 0) and whose name is "PLAYR", but whose
`grid_w`, `grid_h` and `tray_count` are left at the zeroed value 0 (the
score screen substitutes 10/10/4 for non-positive values at display
time); the derived `high_score` is the raw parsed score, taken before
the clamp pass (so a negative legacy score leaves it negative); with
neither file, the table is empty. -/
theorem claim_C8_legacy_fallback :
    (∀ hs hc : Int,
      (load_high_scores_no_primary (some (hs, hc))).1 =
        [⟨0, 0, 0, if hs < 0 then 0 else hs,
          if hc < 0 then 0 else hc, "PLAYR"⟩] ∧
      (load_high_scores_no_primary (some (hs, hc))).2 = hs) ∧
    load_high_scores_no_primary none = ([], 0) := by
  refine ⟨?_, rfl⟩
  intro hs hc
  constructor
  · simp only [load_high_scores_no_primary, List.map_cons, List.map_nil,
      clamp_entry]
    norm_num
  · rfl

/-! ## Claim C9: shape-table ordering

The header `blockblaster_shapes.h` documents (lines 20-23 and 45-47)
that the table must be sorted from fewest to most filled cells because
`weighted_shape_index` derives difficulty from positions.  The data
violates this: the appended diagonal shapes (and the 2×2 diagonals among
the 2×2 block shapes) break the ordering. -/

/-- C9 evaluated at a failing input: index 54 (the 3×3 full block, 9
cells) precedes index 55 (the 3×3 diagonal, 3 cells), so the filled-cell
count is not monotone along the `SHAPES` table; index 12 (3 cells) versus
index 20 (2 cells) breaks it too, and the last entry (4 cells) is not the
fullest. -/
theorem claim_C9_shapes_not_sorted :
    shape_cell_count (SHAPES.getD 54 ⟨0, 0, [], ""⟩) = 9 ∧
    shape_cell_count (SHAPES.getD 55 ⟨0, 0, [], ""⟩) = 3 ∧
    shape_cell_count (SHAPES.getD 12 ⟨0, 0, [], ""⟩) = 3 ∧
    shape_cell_count (SHAPES.getD 20 ⟨0, 0, [], ""⟩) = 2 ∧
    SHAPES.length = 61 ∧
    shape_cell_count (SHAPES.getD 60 ⟨0, 0, [], ""⟩) = 4 ∧
    shape_cell_count (SHAPES.getD 54 ⟨0, 0, [], ""⟩) >
      shape_cell_count (SHAPES.getD 60 ⟨0, 0, [], ""⟩) := by
  decide

end BlockBlaster
